import Mathlib

/-!
# run-it: the `nl2CmdFlow` command-synthesis flow

A shallow embedding of `src/nl2cmd/main.go`.

The program is one flow function and the `main` that serves it.  The flow calls
three operations of the genkit library, which is not part of the repository:
`genkit.LookupPrompt`, `Prompt.Execute` and `ModelResponse.Output` (plus the
accessor `ModelResponse.Text`).  They are embedded as data: a prompt is the
function its `Execute` computes, a model response is what its `Text` and
`Output` methods yield.  Every theorem quantifies over all of them, so nothing
is assumed about what the library or the remote model does.

Go returns `(*CmdResp, error)`; the embedding keeps both components as options
(`none` is Go's `nil`), so that "a response and no error" is a property to be
proved and not one built into the type.  Effects (log lines, library calls) are
recorded in order in a trace.
-/

namespace RunIt

/-! ## Data model (main.go, lines 17-24) -/

/-- Request payload: `type NL2Cmd struct { NL2Cmd string }`, JSON key `nl2cmd`. -/
structure NL2Cmd where
  NL2Cmd : String
  deriving DecidableEq, Repr

/-- Response payload: `type CmdResp struct { Cmd string; Runnable bool }`,
JSON keys `cmd` and `runnable`. -/
structure CmdResp where
  Cmd : String
  Runnable : Bool
  deriving DecidableEq, Repr

/-- Go `error` value, identified by the text its `Error()` method returns. -/
structure GoError where
  Error : String
  deriving DecidableEq, Repr

/-- Go `errors.New`. -/
def errors.New (text : String) : GoError := ⟨text⟩

/-- The zero value of `CmdResp`, which `var cmd CmdResp` (line 55) declares. -/
def CmdResp.zero : CmdResp := ⟨"", false⟩

/-! ## External collaborators -/

/-- An `*ai.ModelResponse`, seen through the two methods the flow calls.
`Output` receives the value behind the pointer it is handed and yields either
the error it returns or the value it leaves behind the pointer. -/
structure ModelResponse where
  Text : String
  Output : CmdResp → Except GoError CmdResp

/-- An `ai.Prompt`, seen through `Execute(ctx, ai.WithInput(input))`.  The input
is the flow's `*NL2Cmd` argument, `none` being the nil pointer. -/
structure Prompt where
  Execute : Option NL2Cmd → Except GoError ModelResponse

/-- What one step of a run does to the outside world. -/
inductive Event where
  | log (line : String)
  | lookupPrompt (name : String)
  | execute (input : Option NL2Cmd)
  | output
  deriving DecidableEq, Repr

/-- The Go result pair `(*CmdResp, error)` of one flow invocation, together with
the trace of what the invocation did. -/
structure FlowResult where
  resp : Option CmdResp
  err : Option GoError
  trace : List Event
  deriving DecidableEq, Repr

/-- A flow registered with genkit: its name and the function it runs. -/
structure Flow where
  Name : String
  fn : Option NL2Cmd → FlowResult

/-- The genkit registry `g`: the prompts loaded from the prompt directory and
the flows defined so far. -/
structure Genkit where
  prompts : String → Option Prompt
  flows : List Flow

/-- The registry `genkit.Init` builds from the prompt directory.  No flow is
defined yet: flows enter the registry through `genkit.DefineFlow` only. -/
def genkit.Init (promptDir : String → Option Prompt) : Genkit :=
  ⟨promptDir, []⟩

/-- Looks a prompt up by name; `none` is the nil prompt. -/
def genkit.LookupPrompt (g : Genkit) (name : String) : Option Prompt :=
  g.prompts name

/-- Registers a flow under a name. -/
def genkit.DefineFlow (g : Genkit) (name : String) (fn : Option NL2Cmd → FlowResult) :
    Genkit :=
  { g with flows := g.flows ++ [⟨name, fn⟩] }

/-- All flows of the registry. -/
def genkit.ListFlows (g : Genkit) : List Flow := g.flows

/-! ## Log formatting -/

/-- Go `%+v` of a `*NL2Cmd`. -/
def fmtNL2Cmd : Option NL2Cmd → String
  | none => "<nil>"
  | some n => "&\x7bNL2Cmd:" ++ n.NL2Cmd ++ "\x7d"

/-- Go `%+v` of a `CmdResp`. -/
def fmtCmdResp (c : CmdResp) : String :=
  "\x7bCmd:" ++ c.Cmd ++ " Runnable:" ++ (if c.Runnable then "true" else "false") ++ "\x7d"

/-! ## The flow (main.go, lines 40-64) -/

/-- The function passed to `genkit.DefineFlow` under the name `nl2CmdFlow`. -/
def nl2CmdFlow (g : Genkit) (nl2cmd : Option NL2Cmd) : FlowResult :=
  let t0 := [Event.log ("Received input: " ++ fmtNL2Cmd nl2cmd), Event.lookupPrompt "nl2cmd"]
  match genkit.LookupPrompt g "nl2cmd" with
  | none => ⟨none, some (errors.New "Prompt not found: nl2cmd"), t0⟩
  | some nl2cmdPromt =>
    let t1 := t0 ++ [Event.log "Executing prompt...", Event.execute nl2cmd]
    match nl2cmdPromt.Execute nl2cmd with
    | .error err => ⟨none, some err, t1 ++ [Event.log ("Execute error: " ++ err.Error)]⟩
    | .ok res =>
      let t2 := t1 ++ [Event.output]
      match res.Output CmdResp.zero with
      | .error err =>
        ⟨none, some err,
          t2 ++ [Event.log ("Error parsing response: " ++ err.Error),
                 Event.log ("Raw text that failed to parse: " ++ res.Text)]⟩
      | .ok cmd =>
        ⟨some cmd, none, t2 ++ [Event.log ("Successfully parsed response: " ++ fmtCmdResp cmd)]⟩

/-! ## Observations on a trace -/

/-- The inputs of the provider calls of a trace, in order. -/
def executeCalls : List Event → List (Option NL2Cmd)
  | [] => []
  | Event.execute i :: t => i :: executeCalls t
  | _ :: t => executeCalls t

/-- The number of parse attempts (`Output` calls) of a trace. -/
def outputCalls : List Event → Nat
  | [] => 0
  | Event.output :: t => outputCalls t + 1
  | _ :: t => outputCalls t

/-- The lines a trace writes to the log, in order. -/
def logLines : List Event → List String
  | [] => []
  | Event.log l :: t => l :: logLines t
  | _ :: t => logLines t

/-! ## Serving the flows (main.go, lines 26-39 and 66-71) -/

/-- An `http.ServeMux`: the registered patterns with their handlers, in
registration order.  The handler `genkit.Handler(a)` is kept as the flow it
wraps. -/
structure ServeMux where
  routes : List (String × Flow)

/-- Go `http.NewServeMux`. -/
def http.NewServeMux : ServeMux := ⟨[]⟩

/-- The patterns registered on a mux. -/
def ServeMux.patterns (mux : ServeMux) : List String := mux.routes.map Prod.fst

/-- Go `mux.HandleFunc(pattern, handler)`.  Registering a pattern that is
already registered panics; `none` is the panic. -/
def ServeMux.HandleFunc (mux : ServeMux) (pattern : String) (handler : Flow) :
    Option ServeMux :=
  if pattern ∈ mux.patterns then none else some ⟨mux.routes ++ [(pattern, handler)]⟩

/-- The loop of lines 68-70: one `HandleFunc` call per listed flow. -/
def registerFlows : List Flow → ServeMux → Option ServeMux
  | [], mux => some mux
  | a :: rest, mux =>
    match mux.HandleFunc ("POST /" ++ a.Name) a with
    | none => none
    | some mux1 => registerFlows rest mux1

/-- The registry as it stands after line 64 of `main`: initialised from the
prompt directory, with the one flow defined.  The flow closes over `g`. -/
def mainRegistry (promptDir : String → Option Prompt) : Genkit :=
  let g := genkit.Init promptDir
  genkit.DefineFlow g "nl2CmdFlow" (nl2CmdFlow g)

/-- The mux `main` hands to `server.Start`; `none` if building it panics.
Starting the server is not modelled. -/
def main (promptDir : String → Option Prompt) : Option ServeMux :=
  registerFlows (genkit.ListFlows (mainRegistry promptDir)) http.NewServeMux

/-! ## JSON encoding of the response (struct tags, lines 21-24) -/

/-- The JSON values the response encoding needs. -/
inductive JSON where
  | null
  | bool (b : Bool)
  | str (s : String)
  | obj (fields : List (String × JSON))

/-- The encoding `encoding/json` gives a `CmdResp`: one member per exported
field, in declaration order, keyed by the field tag; neither tag carries
`omitempty`. -/
def CmdResp.toJSON (c : CmdResp) : JSON :=
  JSON.obj [("cmd", JSON.str c.Cmd), ("runnable", JSON.bool c.Runnable)]

/-- The keys of a JSON object, in order; `none` for a value that is no object. -/
def JSON.keys : JSON → Option (List String)
  | JSON.obj fields => some (fields.map Prod.fst)
  | _ => none

/-- The member of a JSON object under a key. -/
def JSON.member (key : String) : JSON → Option JSON
  | JSON.obj fields => (fields.find? (fun kv => kv.1 == key)).map Prod.snd
  | _ => none

/-! ## Concrete collaborators, used to run the flow on examples -/

/-- A prompt directory holding one prompt, under the name `nl2cmd`. -/
def storeWith (p : Prompt) : String → Option Prompt :=
  fun name => if name = "nl2cmd" then some p else none

/-- A prompt directory with no `nl2cmd` prompt. -/
def emptyStore : String → Option Prompt := fun _ => none

/-- A prompt whose provider call fails with the given error. -/
def failingPrompt (e : GoError) : Prompt := ⟨fun _ => Except.error e⟩

/-- A prompt whose provider call succeeds with the given response. -/
def replyingPrompt (res : ModelResponse) : Prompt := ⟨fun _ => Except.ok res⟩

/-- A response that parses: raw text and the value `Output` decodes from it. -/
def parsedReply (text : String) (c : CmdResp) : ModelResponse :=
  ⟨text, fun _ => Except.ok c⟩

/-- The request of the example in the interface description. -/
def listFilesRequest : Option NL2Cmd := some ⟨"list all files including hidden ones"⟩

/-- The request whose text is the empty string. -/
def emptyRequest : Option NL2Cmd := some ⟨""⟩

/-- A response whose `Output` decodes the raw text that `Text` yields, with the
given decoder. -/
def decodedReply (decode : String → CmdResp → Except GoError CmdResp) (text : String) :
    ModelResponse :=
  ⟨text, decode text⟩

/-- A decoder that rejects every text, with an error that quotes the text. -/
def quotingDecoder : String → CmdResp → Except GoError CmdResp :=
  fun text _ => Except.error ⟨"cannot parse: " ++ text⟩

/-- A reply with both fields of the schema, the command being the empty string. -/
def emptyCmdReply : ModelResponse :=
  parsedReply "\x7b\"cmd\":\"\",\"runnable\":false\x7d" ⟨"", false⟩

/-- The reply of the example in the interface description. -/
def lsReply : ModelResponse :=
  parsedReply "\x7b\"cmd\":\"ls -la\",\"runnable\":true\x7d" ⟨"ls -la", true⟩

/-- A registry whose `nl2cmd` prompt answers every request with one response. -/
def registryReplying (res : ModelResponse) : Genkit :=
  genkit.Init (storeWith (replyingPrompt res))

/-! ## The four paths of the flow -/

/-- The run when the prompt is missing (lines 41-46). -/
theorem nl2CmdFlow_of_lookup_none (g : Genkit) (nl2cmd : Option NL2Cmd)
    (h : genkit.LookupPrompt g "nl2cmd" = none) :
    nl2CmdFlow g nl2cmd =
      ⟨none, some (errors.New "Prompt not found: nl2cmd"),
        [Event.log ("Received input: " ++ fmtNL2Cmd nl2cmd), Event.lookupPrompt "nl2cmd"]⟩ := by
  simp only [nl2CmdFlow, h]

/-- The run when the provider call fails (lines 41-53). -/
theorem nl2CmdFlow_of_execute_error (g : Genkit) (nl2cmd : Option NL2Cmd) (p : Prompt)
    (e : GoError) (hp : genkit.LookupPrompt g "nl2cmd" = some p)
    (hx : p.Execute nl2cmd = Except.error e) :
    nl2CmdFlow g nl2cmd =
      ⟨none, some e,
        [Event.log ("Received input: " ++ fmtNL2Cmd nl2cmd), Event.lookupPrompt "nl2cmd",
         Event.log "Executing prompt...", Event.execute nl2cmd,
         Event.log ("Execute error: " ++ e.Error)]⟩ := by
  simp only [nl2CmdFlow, hp, hx, List.cons_append, List.nil_append]

/-- The run when parsing the provider output fails (lines 41-60). -/
theorem nl2CmdFlow_of_output_error (g : Genkit) (nl2cmd : Option NL2Cmd) (p : Prompt)
    (res : ModelResponse) (e : GoError) (hp : genkit.LookupPrompt g "nl2cmd" = some p)
    (hx : p.Execute nl2cmd = Except.ok res) (ho : res.Output CmdResp.zero = Except.error e) :
    nl2CmdFlow g nl2cmd =
      ⟨none, some e,
        [Event.log ("Received input: " ++ fmtNL2Cmd nl2cmd), Event.lookupPrompt "nl2cmd",
         Event.log "Executing prompt...", Event.execute nl2cmd, Event.output,
         Event.log ("Error parsing response: " ++ e.Error),
         Event.log ("Raw text that failed to parse: " ++ res.Text)]⟩ := by
  simp only [nl2CmdFlow, hp, hx, ho, List.cons_append, List.nil_append]

/-- The run when every step succeeds (lines 41-63). -/
theorem nl2CmdFlow_of_output_ok (g : Genkit) (nl2cmd : Option NL2Cmd) (p : Prompt)
    (res : ModelResponse) (c : CmdResp) (hp : genkit.LookupPrompt g "nl2cmd" = some p)
    (hx : p.Execute nl2cmd = Except.ok res) (ho : res.Output CmdResp.zero = Except.ok c) :
    nl2CmdFlow g nl2cmd =
      ⟨some c, none,
        [Event.log ("Received input: " ++ fmtNL2Cmd nl2cmd), Event.lookupPrompt "nl2cmd",
         Event.log "Executing prompt...", Event.execute nl2cmd, Event.output,
         Event.log ("Successfully parsed response: " ++ fmtCmdResp c)]⟩ := by
  simp only [nl2CmdFlow, hp, hx, ho, List.cons_append, List.nil_append]

/-- The flow reads the registry through its prompts only: defining flows does
not change what it does. -/
theorem nl2CmdFlow_congr_prompts (g g' : Genkit) (nl2cmd : Option NL2Cmd)
    (h : g.prompts = g'.prompts) : nl2CmdFlow g nl2cmd = nl2CmdFlow g' nl2cmd := by
  simp only [nl2CmdFlow, genkit.LookupPrompt, h]

/-- In `main` the flow closes over the one registry `g`; run against the
registry as it stands once the flow is defined, it does what it does against the
registry `genkit.Init` returned. -/
theorem nl2CmdFlow_mainRegistry (promptDir : String → Option Prompt)
    (nl2cmd : Option NL2Cmd) :
    nl2CmdFlow (mainRegistry promptDir) nl2cmd = nl2CmdFlow (genkit.Init promptDir) nl2cmd :=
  nl2CmdFlow_congr_prompts _ _ nl2cmd rfl

/-- The registry of the examples finds its prompt. -/
theorem lookup_registryReplying (res : ModelResponse) :
    genkit.LookupPrompt (registryReplying res) "nl2cmd" = some (replyingPrompt res) := by
  simp [registryReplying, genkit.LookupPrompt, genkit.Init, storeWith]

/-! ## Missing template -/

/-- C1: for every request, when looking up the prompt named nl2cmd yields
nothing, the flow returns the error with text "Prompt not found: nl2cmd", returns
no response, and makes no provider call. -/
theorem nl2CmdFlow_prompt_not_found (g : Genkit) (nl2cmd : Option NL2Cmd)
    (h : genkit.LookupPrompt g "nl2cmd" = none) :
    (nl2CmdFlow g nl2cmd).resp = none ∧
    (nl2CmdFlow g nl2cmd).err = some (errors.New "Prompt not found: nl2cmd") ∧
    (∀ e, (nl2CmdFlow g nl2cmd).err = some e → e.Error = "Prompt not found: nl2cmd") ∧
    executeCalls (nl2CmdFlow g nl2cmd).trace = [] := by
  rw [nl2CmdFlow_of_lookup_none g nl2cmd h]
  refine ⟨rfl, rfl, ?_, rfl⟩
  intro e he
  cases he
  rfl

/-- Witness of C1: the registry with an empty prompt directory. -/
theorem nl2CmdFlow_prompt_not_found_witness :
    genkit.LookupPrompt (genkit.Init emptyStore) "nl2cmd" = none ∧
    (nl2CmdFlow (genkit.Init emptyStore) listFilesRequest).resp = none ∧
    (nl2CmdFlow (genkit.Init emptyStore) listFilesRequest).err =
      some (errors.New "Prompt not found: nl2cmd") ∧
    (∀ e, (nl2CmdFlow (genkit.Init emptyStore) listFilesRequest).err = some e →
      e.Error = "Prompt not found: nl2cmd") ∧
    executeCalls (nl2CmdFlow (genkit.Init emptyStore) listFilesRequest).trace = [] :=
  ⟨rfl, nl2CmdFlow_prompt_not_found (genkit.Init emptyStore) listFilesRequest rfl⟩

/-! ## Provider failure -/

/-- C2: when the template is found and the provider call fails with error e, the
flow returns exactly e and no response, has called the provider once only (no
retry), and has made no attempt to parse output. -/
theorem nl2CmdFlow_provider_error (g : Genkit) (nl2cmd : Option NL2Cmd) (p : Prompt)
    (e : GoError) (hp : genkit.LookupPrompt g "nl2cmd" = some p)
    (hx : p.Execute nl2cmd = Except.error e) :
    (nl2CmdFlow g nl2cmd).resp = none ∧
    (nl2CmdFlow g nl2cmd).err = some e ∧
    executeCalls (nl2CmdFlow g nl2cmd).trace = [nl2cmd] ∧
    outputCalls (nl2CmdFlow g nl2cmd).trace = 0 := by
  rw [nl2CmdFlow_of_execute_error g nl2cmd p e hp hx]
  exact ⟨rfl, rfl, rfl, rfl⟩

/-- Witness of C2: a provider that fails with a quota error. -/
theorem nl2CmdFlow_provider_error_witness :
    genkit.LookupPrompt (genkit.Init (storeWith (failingPrompt ⟨"quota exceeded"⟩))) "nl2cmd" =
      some (failingPrompt ⟨"quota exceeded"⟩) ∧
    (failingPrompt ⟨"quota exceeded"⟩).Execute listFilesRequest =
      Except.error ⟨"quota exceeded"⟩ ∧
    (nl2CmdFlow (genkit.Init (storeWith (failingPrompt ⟨"quota exceeded"⟩)))
      listFilesRequest).resp = none ∧
    (nl2CmdFlow (genkit.Init (storeWith (failingPrompt ⟨"quota exceeded"⟩)))
      listFilesRequest).err = some ⟨"quota exceeded"⟩ ∧
    executeCalls (nl2CmdFlow (genkit.Init (storeWith (failingPrompt ⟨"quota exceeded"⟩)))
      listFilesRequest).trace = [listFilesRequest] ∧
    outputCalls (nl2CmdFlow (genkit.Init (storeWith (failingPrompt ⟨"quota exceeded"⟩)))
      listFilesRequest).trace = 0 :=
  ⟨rfl, rfl,
    nl2CmdFlow_provider_error (genkit.Init (storeWith (failingPrompt ⟨"quota exceeded"⟩)))
      listFilesRequest (failingPrompt ⟨"quota exceeded"⟩) ⟨"quota exceeded"⟩ rfl rfl⟩

/-! ## Pass-through -/

/-- C5: when the template is found, the provider call succeeds with res and
parsing res yields the response c, the flow returns exactly c (same Cmd, same
Runnable) and no error. -/
theorem nl2CmdFlow_pass_through (g : Genkit) (nl2cmd : Option NL2Cmd) (p : Prompt)
    (res : ModelResponse) (c : CmdResp) (hp : genkit.LookupPrompt g "nl2cmd" = some p)
    (hx : p.Execute nl2cmd = Except.ok res) (ho : res.Output CmdResp.zero = Except.ok c) :
    (nl2CmdFlow g nl2cmd).resp = some c ∧
    (nl2CmdFlow g nl2cmd).err = none ∧
    (∀ r, (nl2CmdFlow g nl2cmd).resp = some r → r.Cmd = c.Cmd ∧ r.Runnable = c.Runnable) := by
  rw [nl2CmdFlow_of_output_ok g nl2cmd p res c hp hx ho]
  refine ⟨rfl, rfl, ?_⟩
  intro r hr
  cases hr
  exact ⟨rfl, rfl⟩

/-- Witness of C5: the example exchange of the interface description. -/
theorem nl2CmdFlow_pass_through_witness :
    genkit.LookupPrompt (registryReplying lsReply) "nl2cmd" = some (replyingPrompt lsReply) ∧
    (replyingPrompt lsReply).Execute listFilesRequest = Except.ok lsReply ∧
    lsReply.Output CmdResp.zero = Except.ok ⟨"ls -la", true⟩ ∧
    (nl2CmdFlow (registryReplying lsReply) listFilesRequest).resp = some ⟨"ls -la", true⟩ ∧
    (nl2CmdFlow (registryReplying lsReply) listFilesRequest).err = none ∧
    (∀ r, (nl2CmdFlow (registryReplying lsReply) listFilesRequest).resp = some r →
      r.Cmd = (⟨"ls -la", true⟩ : CmdResp).Cmd ∧
      r.Runnable = (⟨"ls -la", true⟩ : CmdResp).Runnable) :=
  ⟨rfl, rfl, rfl,
    nl2CmdFlow_pass_through (registryReplying lsReply) listFilesRequest (replyingPrompt lsReply)
      lsReply ⟨"ls -la", true⟩ rfl rfl rfl⟩

/-! ## No validation of the request -/

/-- C6: for every request value, the empty text and the nil pointer included,
whenever the template is found the provider is invoked once, with that request
unchanged; and any error the flow then returns is the error of the provider call
or of the parse step, never one the flow raises over the request. -/
theorem nl2CmdFlow_request_unvalidated (g : Genkit) (nl2cmd : Option NL2Cmd) (p : Prompt)
    (hp : genkit.LookupPrompt g "nl2cmd" = some p) :
    executeCalls (nl2CmdFlow g nl2cmd).trace = [nl2cmd] ∧
    (∀ e, (nl2CmdFlow g nl2cmd).err = some e →
      p.Execute nl2cmd = Except.error e ∨
      ∃ res, p.Execute nl2cmd = Except.ok res ∧ res.Output CmdResp.zero = Except.error e) := by
  cases hx : p.Execute nl2cmd with
  | error e0 =>
    rw [nl2CmdFlow_of_execute_error g nl2cmd p e0 hp hx]
    refine ⟨rfl, ?_⟩
    intro e he
    cases he
    exact Or.inl rfl
  | ok res =>
    cases ho : res.Output CmdResp.zero with
    | error e0 =>
      rw [nl2CmdFlow_of_output_error g nl2cmd p res e0 hp hx ho]
      refine ⟨rfl, ?_⟩
      intro e he
      cases he
      exact Or.inr ⟨res, rfl, ho⟩
    | ok c =>
      rw [nl2CmdFlow_of_output_ok g nl2cmd p res c hp hx ho]
      refine ⟨rfl, ?_⟩
      intro e he
      cases he

/-- Witness of C6: the request whose text is the empty string. -/
theorem nl2CmdFlow_request_unvalidated_witness :
    genkit.LookupPrompt (registryReplying lsReply) "nl2cmd" = some (replyingPrompt lsReply) ∧
    executeCalls (nl2CmdFlow (registryReplying lsReply) emptyRequest).trace = [emptyRequest] ∧
    (∀ e, (nl2CmdFlow (registryReplying lsReply) emptyRequest).err = some e →
      (replyingPrompt lsReply).Execute emptyRequest = Except.error e ∨
      ∃ res, (replyingPrompt lsReply).Execute emptyRequest = Except.ok res ∧
        res.Output CmdResp.zero = Except.error e) :=
  ⟨rfl, nl2CmdFlow_request_unvalidated (registryReplying lsReply) emptyRequest
    (replyingPrompt lsReply) rfl⟩

/-! ## Two outcomes, and short-circuiting -/

/-- C7: every invocation ends in exactly one of two ways, a response with no
error or an error with no response; and an error of the lookup, of the provider
call or of the parse step ends the run there: after a failed lookup there is no
provider call and no parse attempt, after a failed provider call there is no
parse attempt, and in all three cases no response is returned. -/
theorem nl2CmdFlow_two_outcomes (g : Genkit) (nl2cmd : Option NL2Cmd) :
    (((∃ c, (nl2CmdFlow g nl2cmd).resp = some c) ∧ (nl2CmdFlow g nl2cmd).err = none) ∨
      ((nl2CmdFlow g nl2cmd).resp = none ∧ ∃ e, (nl2CmdFlow g nl2cmd).err = some e)) ∧
    (genkit.LookupPrompt g "nl2cmd" = none →
      (nl2CmdFlow g nl2cmd).resp = none ∧
      executeCalls (nl2CmdFlow g nl2cmd).trace = [] ∧
      outputCalls (nl2CmdFlow g nl2cmd).trace = 0) ∧
    (∀ p e, genkit.LookupPrompt g "nl2cmd" = some p → p.Execute nl2cmd = Except.error e →
      (nl2CmdFlow g nl2cmd).resp = none ∧
      (nl2CmdFlow g nl2cmd).err = some e ∧
      outputCalls (nl2CmdFlow g nl2cmd).trace = 0) ∧
    (∀ p res e, genkit.LookupPrompt g "nl2cmd" = some p → p.Execute nl2cmd = Except.ok res →
      res.Output CmdResp.zero = Except.error e →
      (nl2CmdFlow g nl2cmd).resp = none ∧
      (nl2CmdFlow g nl2cmd).err = some e ∧
      outputCalls (nl2CmdFlow g nl2cmd).trace = 1) := by
  refine ⟨?_, ?_, ?_, ?_⟩
  · cases hp : genkit.LookupPrompt g "nl2cmd" with
    | none =>
      rw [nl2CmdFlow_of_lookup_none g nl2cmd hp]
      exact Or.inr ⟨rfl, _, rfl⟩
    | some p =>
      cases hx : p.Execute nl2cmd with
      | error e =>
        rw [nl2CmdFlow_of_execute_error g nl2cmd p e hp hx]
        exact Or.inr ⟨rfl, _, rfl⟩
      | ok res =>
        cases ho : res.Output CmdResp.zero with
        | error e =>
          rw [nl2CmdFlow_of_output_error g nl2cmd p res e hp hx ho]
          exact Or.inr ⟨rfl, _, rfl⟩
        | ok c =>
          rw [nl2CmdFlow_of_output_ok g nl2cmd p res c hp hx ho]
          exact Or.inl ⟨⟨_, rfl⟩, rfl⟩
  · intro hp
    rw [nl2CmdFlow_of_lookup_none g nl2cmd hp]
    exact ⟨rfl, rfl, rfl⟩
  · intro p e hp hx
    rw [nl2CmdFlow_of_execute_error g nl2cmd p e hp hx]
    exact ⟨rfl, rfl, rfl⟩
  · intro p res e hp hx ho
    rw [nl2CmdFlow_of_output_error g nl2cmd p res e hp hx ho]
    exact ⟨rfl, rfl, rfl⟩

/-! ## Routes -/

/-- Registering flows whose patterns are pairwise distinct and not yet on the
mux succeeds, and adds exactly one pattern per flow, in order. -/
theorem registerFlows_patterns (flows : List Flow) (mux : ServeMux)
    (hnodup : (flows.map (fun a => "POST /" ++ a.Name)).Nodup)
    (hnew : ∀ a ∈ flows, "POST /" ++ a.Name ∉ mux.patterns) :
    ∃ mux1, registerFlows flows mux = some mux1 ∧
      mux1.patterns = mux.patterns ++ flows.map (fun a => "POST /" ++ a.Name) := by
  induction flows generalizing mux with
  | nil => exact ⟨mux, rfl, by simp⟩
  | cons a rest ih =>
    have ha : "POST /" ++ a.Name ∉ mux.patterns := hnew a (List.mem_cons_self _ _)
    rw [List.map_cons, List.nodup_cons] at hnodup
    have hstep : mux.HandleFunc ("POST /" ++ a.Name) a =
        some ⟨mux.routes ++ [("POST /" ++ a.Name, a)]⟩ := by
      simp [ServeMux.HandleFunc, ha]
    have hpat : (⟨mux.routes ++ [("POST /" ++ a.Name, a)]⟩ : ServeMux).patterns =
        mux.patterns ++ ["POST /" ++ a.Name] := by
      simp [ServeMux.patterns]
    obtain ⟨mux1, h1, h2⟩ := ih ⟨mux.routes ++ [("POST /" ++ a.Name, a)]⟩ hnodup.2 (by
      intro b hb hmem
      rw [hpat, List.mem_append, List.mem_singleton] at hmem
      rcases hmem with hmem | hmem
      · exact hnew b (List.mem_cons_of_mem _ hb) hmem
      · exact hnodup.1 (hmem ▸ List.mem_map_of_mem (fun a => "POST /" ++ a.Name) hb))
    refine ⟨mux1, ?_, ?_⟩
    · simp only [registerFlows, hstep]
      exact h1
    · rw [h2, hpat]
      simp

/-- C8: the routes main registers are one per defined flow, each with the
pattern "POST /" followed by the flow name; the only flow defined is named
nl2CmdFlow (and runs the flow function), so the registered patterns are exactly
"POST /nl2CmdFlow". -/
theorem main_routes (promptDir : String → Option Prompt) :
    ∃ mux, main promptDir = some mux ∧
      mux.patterns =
        (genkit.ListFlows (mainRegistry promptDir)).map (fun a => "POST /" ++ a.Name) ∧
      (genkit.ListFlows (mainRegistry promptDir)).map Flow.Name = ["nl2CmdFlow"] ∧
      mux.patterns = ["POST /nl2CmdFlow"] ∧
      (∀ r ∈ mux.routes, r.2.fn = nl2CmdFlow (genkit.Init promptDir)) := by
  refine ⟨⟨[("POST /nl2CmdFlow", ⟨"nl2CmdFlow", nl2CmdFlow (genkit.Init promptDir)⟩)]⟩,
    ?_, ?_, ?_, ?_, ?_⟩
  · simp [main, registerFlows, mainRegistry, genkit.ListFlows, genkit.DefineFlow, genkit.Init,
      ServeMux.HandleFunc, ServeMux.patterns, http.NewServeMux]
  · simp [mainRegistry, genkit.ListFlows, genkit.DefineFlow, genkit.Init, ServeMux.patterns]
  · simp [mainRegistry, genkit.ListFlows, genkit.DefineFlow, genkit.Init]
  · simp [ServeMux.patterns]
  · intro r hr
    simp only [List.mem_singleton] at hr
    rw [hr]

/-! ## Encoding of the response -/

/-- C9: the JSON encoding of every response is an object whose keys are exactly
"cmd" and "runnable"; "cmd" holds the command as a JSON string, "runnable" holds
the flag as a JSON boolean, and no other key has a member. -/
theorem CmdResp_toJSON_shape (c : CmdResp) :
    c.toJSON.keys = some ["cmd", "runnable"] ∧
    c.toJSON.member "cmd" = some (JSON.str c.Cmd) ∧
    c.toJSON.member "runnable" = some (JSON.bool c.Runnable) ∧
    (∀ key, key ≠ "cmd" → key ≠ "runnable" → c.toJSON.member key = none) := by
  refine ⟨rfl, ?_, ?_, ?_⟩
  · simp [CmdResp.toJSON, JSON.member, List.find?]
  · simp [CmdResp.toJSON, JSON.member, List.find?]
  · intro key h1 h2
    have h1' : ("cmd" == key) = false := by
      simpa using fun h => h1 h.symm
    have h2' : ("runnable" == key) = false := by
      simpa using fun h => h2 h.symm
    simp [CmdResp.toJSON, JSON.member, List.find?, h1', h2']

/-! ## Shape of a successful response -/

/-- Counterexample to C4 as stated: a provider reply with both fields of the
schema, the command being the empty string, parses, and the flow returns it, so
the command of the response returned is empty. -/
theorem nl2CmdFlow_empty_command :
    ¬ (∀ (g : Genkit) (nl2cmd : Option NL2Cmd) (p : Prompt) (res : ModelResponse) (c : CmdResp),
        genkit.LookupPrompt g "nl2cmd" = some p → p.Execute nl2cmd = Except.ok res →
        res.Output CmdResp.zero = Except.ok c →
        ∃ r, (nl2CmdFlow g nl2cmd).resp = some r ∧ r.Cmd ≠ "") := by
  intro h
  obtain ⟨r, hr, hne⟩ := h (registryReplying emptyCmdReply) listFilesRequest
    (replyingPrompt emptyCmdReply) emptyCmdReply ⟨"", false⟩ rfl rfl rfl
  have hresp : (nl2CmdFlow (registryReplying emptyCmdReply) listFilesRequest).resp =
      some ⟨"", false⟩ := rfl
  rw [hresp] at hr
  cases hr
  exact hne rfl

/-- C4, amended: when the provider output parses into c, the flow returns a
response and no error, and the response has both fields, in its encoding too:
"cmd" is a JSON string, the command of c, which may be empty, and "runnable" is a
JSON boolean, the flag of c. -/
theorem nl2CmdFlow_response_shape (g : Genkit) (nl2cmd : Option NL2Cmd) (p : Prompt)
    (res : ModelResponse) (c : CmdResp) (hp : genkit.LookupPrompt g "nl2cmd" = some p)
    (hx : p.Execute nl2cmd = Except.ok res) (ho : res.Output CmdResp.zero = Except.ok c) :
    ∃ r, (nl2CmdFlow g nl2cmd).resp = some r ∧
      (nl2CmdFlow g nl2cmd).err = none ∧
      r.toJSON.member "cmd" = some (JSON.str c.Cmd) ∧
      r.toJSON.member "runnable" = some (JSON.bool c.Runnable) := by
  refine ⟨c, ?_, ?_, ?_, ?_⟩
  · rw [nl2CmdFlow_of_output_ok g nl2cmd p res c hp hx ho]
  · rw [nl2CmdFlow_of_output_ok g nl2cmd p res c hp hx ho]
  · simp [CmdResp.toJSON, JSON.member, List.find?]
  · simp [CmdResp.toJSON, JSON.member, List.find?]

/-- Witness of C4, amended: the reply whose command is the empty string. -/
theorem nl2CmdFlow_response_shape_witness :
    genkit.LookupPrompt (registryReplying emptyCmdReply) "nl2cmd" =
      some (replyingPrompt emptyCmdReply) ∧
    (replyingPrompt emptyCmdReply).Execute listFilesRequest = Except.ok emptyCmdReply ∧
    emptyCmdReply.Output CmdResp.zero = Except.ok ⟨"", false⟩ ∧
    ∃ r, (nl2CmdFlow (registryReplying emptyCmdReply) listFilesRequest).resp = some r ∧
      (nl2CmdFlow (registryReplying emptyCmdReply) listFilesRequest).err = none ∧
      r.toJSON.member "cmd" = some (JSON.str (⟨"", false⟩ : CmdResp).Cmd) ∧
      r.toJSON.member "runnable" = some (JSON.bool (⟨"", false⟩ : CmdResp).Runnable) :=
  ⟨rfl, rfl, rfl,
    nl2CmdFlow_response_shape (registryReplying emptyCmdReply) listFilesRequest
      (replyingPrompt emptyCmdReply) emptyCmdReply ⟨"", false⟩ rfl rfl rfl⟩

/-! ## Parse failure -/

/-- Counterexample to C10 as stated: with a decoder whose error quotes the text
it rejects, the error the flow returns to the caller depends on the raw text (two
replies that differ in their raw text only give two different errors) and
contains it (the raw text "ls -la" is part of the error text returned). -/
theorem nl2CmdFlow_parse_error_carries_raw_text :
    ¬ (∀ (decode : String → CmdResp → Except GoError CmdResp) (nl2cmd : Option NL2Cmd)
        (text text1 : String) (e e1 : GoError),
        decode text CmdResp.zero = Except.error e →
        decode text1 CmdResp.zero = Except.error e1 →
        (nl2CmdFlow (registryReplying (decodedReply decode text)) nl2cmd).err =
          (nl2CmdFlow (registryReplying (decodedReply decode text1)) nl2cmd).err) ∧
    ¬ (∀ (g : Genkit) (nl2cmd : Option NL2Cmd) (p : Prompt) (res : ModelResponse)
        (e : GoError),
        genkit.LookupPrompt g "nl2cmd" = some p → p.Execute nl2cmd = Except.ok res →
        res.Output CmdResp.zero = Except.error e → res.Text ≠ "" →
        ∀ x, (nl2CmdFlow g nl2cmd).err = some x → ¬ res.Text.data <:+: x.Error.data) := by
  constructor
  · intro h
    have h1 := h quotingDecoder listFilesRequest "ls -la" "rm x" _ _ rfl rfl
    have h2 : (nl2CmdFlow (registryReplying (decodedReply quotingDecoder "ls -la"))
        listFilesRequest).err = some ⟨"cannot parse: ls -la"⟩ := rfl
    have h3 : (nl2CmdFlow (registryReplying (decodedReply quotingDecoder "rm x"))
        listFilesRequest).err = some ⟨"cannot parse: rm x"⟩ := rfl
    rw [h2, h3] at h1
    exact absurd h1 (by decide)
  · intro h
    have h1 := h (registryReplying (decodedReply quotingDecoder "ls -la")) listFilesRequest
      (replyingPrompt (decodedReply quotingDecoder "ls -la"))
      (decodedReply quotingDecoder "ls -la") ⟨"cannot parse: ls -la"⟩ rfl rfl rfl
      (by decide) ⟨"cannot parse: ls -la"⟩ rfl
    exact h1 ⟨"cannot parse: ".data, [], rfl⟩

/-- C10, amended: when parsing the provider output fails with error e, the flow
writes the raw provider text to the log, after the line that reports e, and it
returns to the caller no response and e itself, the error of the parse step,
unchanged. -/
theorem nl2CmdFlow_parse_error_logged (g : Genkit) (nl2cmd : Option NL2Cmd) (p : Prompt)
    (res : ModelResponse) (e : GoError) (hp : genkit.LookupPrompt g "nl2cmd" = some p)
    (hx : p.Execute nl2cmd = Except.ok res) (ho : res.Output CmdResp.zero = Except.error e) :
    logLines (nl2CmdFlow g nl2cmd).trace =
      ["Received input: " ++ fmtNL2Cmd nl2cmd, "Executing prompt...",
       "Error parsing response: " ++ e.Error,
       "Raw text that failed to parse: " ++ res.Text] ∧
    (nl2CmdFlow g nl2cmd).resp = none ∧
    (nl2CmdFlow g nl2cmd).err = some e := by
  rw [nl2CmdFlow_of_output_error g nl2cmd p res e hp hx ho]
  exact ⟨rfl, rfl, rfl⟩

/-- Witness of C10, amended: a reply that is prose, rejected by a decoder whose
error quotes it. -/
theorem nl2CmdFlow_parse_error_logged_witness :
    genkit.LookupPrompt (registryReplying (decodedReply quotingDecoder "ls -la")) "nl2cmd" =
      some (replyingPrompt (decodedReply quotingDecoder "ls -la")) ∧
    (replyingPrompt (decodedReply quotingDecoder "ls -la")).Execute listFilesRequest =
      Except.ok (decodedReply quotingDecoder "ls -la") ∧
    (decodedReply quotingDecoder "ls -la").Output CmdResp.zero =
      Except.error ⟨"cannot parse: ls -la"⟩ ∧
    logLines (nl2CmdFlow (registryReplying (decodedReply quotingDecoder "ls -la"))
      listFilesRequest).trace =
      ["Received input: " ++ fmtNL2Cmd listFilesRequest, "Executing prompt...",
       "Error parsing response: " ++ (⟨"cannot parse: ls -la"⟩ : GoError).Error,
       "Raw text that failed to parse: " ++ (decodedReply quotingDecoder "ls -la").Text] ∧
    (nl2CmdFlow (registryReplying (decodedReply quotingDecoder "ls -la"))
      listFilesRequest).resp = none ∧
    (nl2CmdFlow (registryReplying (decodedReply quotingDecoder "ls -la"))
      listFilesRequest).err = some ⟨"cannot parse: ls -la"⟩ :=
  ⟨rfl, rfl, rfl,
    nl2CmdFlow_parse_error_logged (registryReplying (decodedReply quotingDecoder "ls -la"))
      listFilesRequest (replyingPrompt (decodedReply quotingDecoder "ls -la"))
      (decodedReply quotingDecoder "ls -la") ⟨"cannot parse: ls -la"⟩ rfl rfl rfl⟩

end RunIt
